import Mathlib

/-!
Verification of the NodeLink Chord DHT implementation.

Shallow embedding of the core of `src/chord_node_v2.py` and
`src/chord_utils.py`: ring-interval predicates, filename tokenizer,
relevance scorer, local `find_successor`, replica enumeration, file
store, distributed inverted index, ranked distributed search, and the
inbound request dispatcher.

Modelling conventions:
 - Python ints in the identifier space are `Nat` (all arithmetic is on
   values `< RING_SIZE`, with explicit `% RING_SIZE` where the source
   has it);
 - float scores are embedded as `Rat` (all scores in the source are
   exact small rationals, so no rounding divergence can occur at the
   inputs considered);
 - network calls are oracles passed as function parameters: the result
   of a remote request is supplied by the oracle, `none`/`false`
   standing for the Python `None`/failure results that the callers
   receive after the source's internal try/except blocks;
 - `hash_key` (SHA-1 truncated mod `RING_SIZE`) is an oracle parameter
   `hash : String → Nat` — none of the claims depend on the concrete
   hash values;
 - Python dicts are association lists in insertion order (Python ≥ 3.7
   dicts preserve insertion order; updating an existing key keeps its
   position), Python sets are deduplicated lists (only cardinality and
   membership of set values are consumed downstream);
 - `str.lower` is mapped `Char.toLower` (the source only ever tokenizes
   ASCII filenames).
-/

/-! ## Constants (chord_node_v2.py lines 41-43) -/

def M : Nat := 8

def RING_SIZE : Nat := 2 ^ M

def REPLICATION_FACTOR : Nat := 3

/-! ## Ring interval predicates

`ChordUtils.in_range` embeds `chord_utils.in_range` (lines 35-42, the
open interval `(start, end)`); `ChordUtils.in_range_inclusive` embeds
lines 44-51; `in_range` embeds `chord_node_v2.in_range` (lines 58-63,
the right-closed interval `(start, end]`); `is_between` embeds
`ChordRing._is_between` (chord_node_v2.py lines 243-250). -/

namespace ChordUtils

def in_range (key start e : Nat) : Bool :=
  if start == e then key != start
  else if start < e then decide (start < key) && decide (key < e)
  else decide (key > start) || decide (key < e)

def in_range_inclusive (key start e : Nat) : Bool :=
  if start == e then true
  else if start < e then decide (start ≤ key) && decide (key ≤ e)
  else decide (key ≥ start) || decide (key ≤ e)

end ChordUtils

def in_range (key start e : Nat) : Bool :=
  if start < e then decide (start < key) && decide (key ≤ e)
  else decide (key > start) || decide (key ≤ e)

def is_between (key start e : Nat) : Bool :=
  if start == e then key != start
  else if start < e then decide (start < key) && decide (key < e)
  else decide (key > start) || decide (key < e)

/-! ## Python string helpers -/

/-- Characters of Python's default `str.strip` / the regex class `\s`
(ASCII part): space, tab, newline, carriage return, vertical tab,
form feed. -/
def pyIsSpace (c : Char) : Bool :=
  c == ' ' || c == '\t' || c == '\n' || c == '\r' || c == '\x0b' || c == '\x0c'

/-- Python `s.lower()` (ASCII). -/
def pyLower (s : String) : String := (s.toList.map Char.toLower).asString

/-- Python `s.strip()`: drop leading and trailing whitespace. -/
def pyStrip (s : String) : String :=
  (((s.toList.dropWhile pyIsSpace).reverse.dropWhile pyIsSpace).reverse).asString

/-- `startsWithChars n h` iff the char list `n` is an initial segment of `h`. -/
def startsWithChars : List Char → List Char → Bool
  | [], _ => true
  | _ :: _, [] => false
  | a :: as, b :: bs => a == b && startsWithChars as bs

/-- Python `needle in hay` on char lists (contiguous substring;
`"" in s` is true). -/
def occursIn : List Char → List Char → Bool
  | n, [] => n.isEmpty
  | n, c :: hs => startsWithChars n (c :: hs) || occursIn n hs

/-- Python `needle in hay` on strings. -/
def occursInStr (needle hay : String) : Bool :=
  occursIn needle.toList hay.toList

/-- Python `range(a, b)` as a list. -/
def pyRange (a b : Nat) : List Nat := (List.range (b - a)).map (a + ·)

/-- Last index of `c` in `cs`, if any. -/
def lastIdxOf (c : Char) (cs : List Char) : Option Nat :=
  (List.range cs.length).foldl
    (fun acc i => if cs.getD i ' ' == c then some i else acc) none

/-- `os.path.splitext(s)[0]` for a bare filename (no path separators,
which is how the source calls it): cut at the last dot, provided some
non-dot character precedes it; otherwise return the whole name. -/
def splitextRoot (s : String) : String :=
  let cs := s.toList
  match lastIdxOf '.' cs with
  | none => s
  | some i =>
    if (cs.take i).any (fun c => c != '.') then (cs.take i).asString else s

/-! ## Tokenizer -/

/-- Delimiter class of the tokenizers' regex `[\s\-_\.]`. -/
def isDelim (c : Char) : Bool :=
  pyIsSpace c || c == '-' || c == '_' || c == '.'

/-! `re.split(r'[\s\-_\.]+', s)`: split on maximal delimiter runs
(empty fields only at the ends). `splitFieldsGo` accumulates the
current field; `splitFieldsAfterDelim` skips the remainder of a
delimiter run. -/

mutual

def splitFieldsGo (cur : List Char) : List Char → List String
  | [] => [cur.reverse.asString]
  | c :: rest =>
    if isDelim c then cur.reverse.asString :: splitFieldsAfterDelim rest
    else splitFieldsGo (c :: cur) rest

def splitFieldsAfterDelim : List Char → List String
  | [] => [""]
  | c :: rest =>
    if isDelim c then splitFieldsAfterDelim rest
    else splitFieldsGo [c] rest

end

def splitFields (s : String) : List String := splitFieldsGo [] s.toList

/-- `re.split(r'[_\-\s\.]', s)` (no `+`): every single delimiter splits. -/
def splitEachGo (cur : List Char) : List Char → List String
  | [] => [cur.reverse.asString]
  | c :: rest =>
    if isDelim c then cur.reverse.asString :: splitEachGo [] rest
    else splitEachGo (c :: cur) rest

def splitEach (s : String) : List String := splitEachGo [] s.toList

/-- Proper prefixes of length 3..len-1 of a token: chord_node_v2.py
lines 169-173 (`if len(token) > 3: for i in range(3, len(token)):
token[:i]`). -/
def pfxs (t : String) : List String :=
  if t.length > 3 then
    (pyRange 3 t.length).map (fun i => (t.toList.take i).asString)
  else []

/-- The split-lowercase-filter front end shared by the tokenizer:
strip the extension, lower-case, split on delimiter runs, keep tokens
of length ≥ 2 (chord_node_v2.py lines 159-165). -/
def keptTokens (filename : String) : List String :=
  (splitFields (pyLower (splitextRoot filename))).filter
    (fun t => t.length ≥ 2)

/-- `chord_node_v2.tokenize_filename` (lines 151-178): kept tokens plus
their proper prefixes of length ≥ 3, as a set (the Python
`list(set(...))` is modelled as `dedup`; downstream consumers only use
membership and the deduplicated length). -/
def tokenize_filename (filename : String) : List String :=
  let tokens := keptTokens filename
  let partTokens := tokens.flatMap pfxs
  (tokens ++ partTokens).dedup

namespace ChordUtils

/-- `chord_utils.tokenize_filename` (lines 53-67): single-character
splits, tokens stripped and kept when nonempty of length > 1, plus the
whole lower-cased extension-free name, deduplicated. -/
def tokenize_filename (filename : String) : List String :=
  let name_without_ext := pyLower (splitextRoot filename)
  let tokens := (splitEach name_without_ext).filterMap (fun t =>
    let s := pyStrip t
    if s ≠ "" ∧ s.length > 1 then some s else none)
  let tokens2 := if tokens.contains name_without_ext then tokens
    else tokens ++ [name_without_ext]
  tokens2.dedup

end ChordUtils

/-! ## Relevance scoring -/

/-- `chord_node_v2.compute_relevance_score` (lines 181-193): the count
of query-list entries occurring in the file token list, divided by the
query list length. -/
def compute_relevance_score (query_tokens file_tokens : List String) : Rat :=
  if query_tokens = [] ∨ file_tokens = [] then 0
  else ((query_tokens.filter (fun t => file_tokens.contains t)).length : Rat) /
       (query_tokens.length : Rat)

namespace ChordUtils

/-- `chord_utils.compute_relevance_score` (lines 69-92): exact set
intersection over normalized tokens; when the intersection is empty, a
substring partial-match count weighted by 0.5. -/
def compute_relevance_score (query_tokens file_tokens : List String) : Rat :=
  if query_tokens = [] ∨ file_tokens = [] then 0
  else
    let query_set := (query_tokens.map (fun t => pyLower (pyStrip t))).dedup
    let file_set := (file_tokens.map (fun t => pyLower (pyStrip t))).dedup
    let intersection := query_set.filter (fun t => file_set.contains t)
    if intersection = [] then
      let partial_matches := (query_set.filter (fun q =>
        file_set.any (fun f => occursInStr q f || occursInStr f q))).length
      (partial_matches : Rat) / (query_set.length : Rat) * (1 / 2)
    else (intersection.length : Rat) / (query_set.length : Rat)

end ChordUtils

/-- Spec-side scorer, following the spec's words (§4.F): given token
sets `Q` and `F`, `score = |Q ∩ F| / |Q|` if `|Q| > 0` else 0, and 0
when `Q` or `F` is empty (cardinalities of the token sets). -/
def relevanceSpec (q f : List String) : Rat :=
  if q = [] ∨ f = [] then 0
  else ((q.toFinset ∩ f.toFinset).card : Rat) / (q.toFinset.card : Rat)

/-! ## Data model (chord_node_v2.py lines 76-148)

`Node.__eq__` compares by `node_id` only; everywhere the source writes
`==`/`in` on nodes, the embedding compares `node_id` fields.
`FileRecord.filename`/`file_hash` and `TokenRecord.token_hash` are
`Option`-typed because the request dispatcher stores them straight from
`request.get(...)`, which yields `None` when the field is absent. -/

structure Node where
  node_id : Nat
  address : String
  port : Nat
deriving DecidableEq

def Node.addr_str (n : Node) : String := n.address ++ ":" ++ toString n.port

structure FileRecord where
  filename : Option String
  content : String
  file_hash : Option Nat
  replicas : List Nat
deriving DecidableEq

structure FileMetadata where
  filename : String
  file_hash : Nat
  node_id : Nat
  node_address : String
  all_tokens : List String
  file_size : Nat
deriving DecidableEq

structure TokenRecord where
  token : String
  token_hash : Option Nat
  files : List (String × FileMetadata)
deriving DecidableEq

/-- Association-list lookup (Python `dict.get` / `in`). -/
def assocFind {α β : Type} [DecidableEq α] : List (α × β) → α → Option β
  | [], _ => none
  | (a, b) :: rest, k => if a = k then some b else assocFind rest k

/-- Association-list update `d[k] = v`: Python dicts keep the position
of an existing key and append new keys. -/
def assocUpsert {α β : Type} [DecidableEq α] : List (α × β) → α → β → List (α × β)
  | [], k, v => [(k, v)]
  | (a, b) :: rest, k, v =>
    if a = k then (a, v) :: rest else (a, b) :: assocUpsert rest k v

/-! ## Ring state and routing (ChordRing, chord_node_v2.py lines 196-497)

Remote `find_successor` queries are an oracle
`remote : Node → Nat → Option Node`; `none` is the `None` that
`_remote_find_successor` returns when the network call fails. -/

structure RingState where
  local_node : Node
  successor : Node
  predecessor : Option Node
  finger_table : List (Option Node)
  next_finger : Nat := 0
deriving DecidableEq

/-- `ChordRing._closest_preceding_node` (lines 230-241): scan the
finger table in reverse for an entry strictly between self and the key. -/
def closest_preceding_node (st : RingState) (key_id : Nat) : Node :=
  match st.finger_table.reverse.find? (fun f? =>
    match f? with
    | some f => f.node_id != st.local_node.node_id &&
        is_between f.node_id st.local_node.node_id key_id
    | none => false) with
  | some (some f) => f
  | _ => st.local_node

/-- `ChordRing.find_successor` (lines 207-228). -/
def find_successor (st : RingState) (remote : Node → Nat → Option Node)
    (key_id : Nat) : Option Node :=
  if st.successor.node_id == st.local_node.node_id then some st.local_node
  else if in_range key_id st.local_node.node_id st.successor.node_id then
    some st.successor
  else
    let closest := closest_preceding_node st key_id
    if closest.node_id == st.local_node.node_id then some st.successor
    else remote closest key_id

/-- `ChordRing.notify` (lines 387-397). -/
def ring_notify (st : RingState) (node : Node) : RingState :=
  match st.predecessor with
  | none => { st with predecessor := some node }
  | some p =>
    if in_range node.node_id p.node_id st.local_node.node_id then
      { st with predecessor := some node }
    else st

/-! ## Per-node state and network environment -/

structure NodeState where
  ring : RingState
  files : List (Option String × FileRecord)
  token_index : List (String × TokenRecord)
deriving DecidableEq

/-- Oracles for the remote sides of the network calls the FileManager
makes; `hash` models `hash_key` (SHA-1 truncated mod `RING_SIZE`). -/
structure Env where
  remote : Node → Nat → Option Node
  remoteStore : Node → String → String → Nat → Bool
  remoteLookup : Node → String → List TokenRecord
  remoteSearch : Node → String → List (String × String)
  getSucc : Node → Option Node
  hash : String → Nat

/-! ## Replica enumeration (FileManager._get_replica_nodes, lines 609-622) -/

def replicaLoop (fs : Nat → Option Node) : Nat → Nat → List Node → List Node
  | 0, _, nodes => nodes
  | fuel + 1, current_id, nodes =>
    match fs current_id with
    | none => nodes
    | some node =>
      if nodes.any (fun m => m.node_id == node.node_id) then nodes
      else replicaLoop fs fuel ((node.node_id + 1) % RING_SIZE) (nodes ++ [node])

def get_replica_nodes (fs : Nat → Option Node) (file_hash : Nat) : List Node :=
  replicaLoop fs REPLICATION_FACTOR file_hash []

/-- Spec-side characterization (§4.G): each enumerated replica is the
successor of the key, respectively of the previous replica's id + 1. -/
def chainFrom (fs : Nat → Option Node) : Nat → List Node → Prop
  | _, [] => True
  | k, n :: rest => fs k = some n ∧ chainFrom fs ((n.node_id + 1) % RING_SIZE) rest

/-! ## Inverted index (FileManager, lines 830-896) -/

/-- `FileManager._store_token_record` (lines 854-866): upsert into the
local postings map when this node is responsible; a remote store has no
local effect (the send is recorded by the caller's trace). -/
def store_token_record (st : NodeState) (node : Node) (token : String)
    (token_hash : Nat) (md : FileMetadata) : NodeState :=
  if node.node_id == st.ring.local_node.node_id then
    let tr := match assocFind st.token_index token with
      | some tr => tr
      | none => ⟨token, some token_hash, []⟩
    let tr2 := { tr with files := assocUpsert tr.files md.filename md }
    { st with token_index := assocUpsert st.token_index token tr2 }
  else st

/-- One iteration of `_build_inverted_index`'s token loop (lines
846-852): resolve the responsible node of the token's hash and store
the posting there (locally or — recorded in the trace — remotely). -/
def indexFoldStep (env : Env) (md : FileMetadata)
    (acc : NodeState × List (String × Node)) (token : String) :
    NodeState × List (String × Node) :=
  match find_successor acc.1.ring env.remote (env.hash token) with
  | none => acc
  | some node =>
    (store_token_record acc.1 node token (env.hash token) md,
     acc.2 ++ [(token, node)])

/-- `FileManager._build_inverted_index` (lines 830-852). Returns the
new state together with the placement trace: one `(token, node)` entry
per token whose responsible node was resolved (`file_size` uses the
character count of the embedded content string for the byte length). -/
def build_inverted_index (st : NodeState) (env : Env) (filename : String)
    (primary_node : Node) (content : String) :
    NodeState × List (String × Node) :=
  let tokens := tokenize_filename filename
  let md : FileMetadata :=
    ⟨filename, env.hash filename, primary_node.node_id,
     primary_node.addr_str, tokens, content.length⟩
  tokens.foldl (indexFoldStep env md) (st, [])

/-! ## File store (FileManager.store_file, lines 575-607) -/

/-- `FileManager.store_file`. The Python loop mutates one shared
`FileRecord` while iterating over the replica nodes; since the success
of a store never depends on the record's `replicas` field (remote
stores serialize only filename, content and file_hash; local stores
always succeed), the loop is modelled in two passes: per-node success
first, then the stored record, whose `replicas` list is — by
aliasing — the final success set also for the locally stored copy. -/
def store_file (st : NodeState) (env : Env) (filename content : String) :
    Bool × NodeState :=
  let file_hash := env.hash filename
  match find_successor st.ring env.remote file_hash with
  | none => (false, st)
  | some _ =>
    let replica_nodes :=
      get_replica_nodes (find_successor st.ring env.remote) file_hash
    let storeOK : Node → Bool := fun node =>
      node.node_id == st.ring.local_node.node_id ||
      env.remoteStore node filename content file_hash
    let successes := replica_nodes.filter storeOK
    let file_record : FileRecord :=
      ⟨some filename, content, some file_hash, successes.map Node.node_id⟩
    let st1 :=
      if replica_nodes.any (fun n => n.node_id == st.ring.local_node.node_id)
      then { st with files := assocUpsert st.files (some filename) file_record }
      else st
    if successes.length > 0 then
      let primary := match replica_nodes with
        | [] => st.ring.local_node
        | n :: _ => n
      (true, (build_inverted_index st1 env filename primary content).1)
    else (false, st1)

/-! ## Search (FileManager, lines 669-995) -/

/-- Local part of `_search_on_node` (lines 704-716): files whose name
contains the query as a substring, case-insensitively. (A `None` file
key — producible only through malformed `store_file` requests — would
raise in Python before matching; such states are outside every run
considered here.) -/
def local_file_matches (st : NodeState) (query : String) (node : Node) :
    List (String × String) :=
  st.files.filterMap (fun kv =>
    match kv.1 with
    | some fn =>
      if occursInStr (pyLower query) (pyLower fn) then some (fn, node.addr_str)
      else none
    | none => none)

/-- `FileManager.search_files` ring-traversal loop (lines 669-702),
fuel = `max_visits` = 10. -/
def search_loop (st : NodeState) (env : Env) (query : String) :
    Nat → Node → List Nat → List (String × String)
  | 0, _, _ => []
  | fuel + 1, current, visited =>
    if visited.contains current.node_id then []
    else
      let node_results :=
        if current.node_id == st.ring.local_node.node_id then
          local_file_matches st query current
        else env.remoteSearch current query
      let next? :=
        if current.node_id == st.ring.local_node.node_id then
          some st.ring.successor
        else env.getSucc current
      match next? with
      | none => node_results
      | some next =>
        if next.node_id == st.ring.local_node.node_id then node_results
        else node_results ++
          search_loop st env query fuel next (current.node_id :: visited)

def search_files (st : NodeState) (env : Env) (query : String) :
    List (String × String) :=
  search_loop st env query 10 st.ring.local_node []

/-- `FileManager._lookup_token` (lines 933-950). -/
def lookup_token (st : NodeState) (env : Env) (token : String) :
    List TokenRecord :=
  match find_successor st.ring env.remote (env.hash token) with
  | none => []
  | some node =>
    if node.node_id == st.ring.local_node.node_id then
      match assocFind st.token_index token with
      | some tr => [tr]
      | none => []
    else env.remoteLookup node token

/-- Candidate accumulation step (lines 913-919): remember the first
metadata per filename and the set of matched tokens. -/
def addCandidate (cands : List (String × FileMetadata × List String))
    (fn : String) (md : FileMetadata) (token : String) :
    List (String × FileMetadata × List String) :=
  match assocFind cands fn with
  | some (md0, matched) =>
    assocUpsert cands fn
      (md0, if matched.contains token then matched else matched ++ [token])
  | none => cands ++ [(fn, md, [token])]

def collect_candidates (st : NodeState) (env : Env)
    (query_tokens : List String) :
    List (String × FileMetadata × List String) :=
  query_tokens.foldl (fun cands token =>
    (lookup_token st env token).foldl (fun cands tr =>
      tr.files.foldl (fun cands kv => addCandidate cands kv.1 kv.2 token)
        cands) cands) []

/-- One insertion step of Python's stable descending sort
(`results.sort(key=lambda x: x[2], reverse=True)`): a later element
with an equal score stays after the earlier ones. -/
def insertDesc (x : String × String × Rat) :
    List (String × String × Rat) → List (String × String × Rat)
  | [] => [x]
  | y :: ys => if x.2.2 > y.2.2 then x :: y :: ys else y :: insertDesc x ys

def pySortDesc (l : List (String × String × Rat)) :
    List (String × String × Rat) :=
  l.foldl (fun acc x => insertDesc x acc) []

/-- `FileManager.search_files_distributed` (lines 898-931). -/
def search_files_distributed (st : NodeState) (env : Env) (query : String) :
    List (String × String × Rat) :=
  if pyStrip query = "" then
    (search_files st env query).map (fun r => (r.1, r.2, (1 : Rat)))
  else
    let query_tokens := tokenize_filename query
    if query_tokens = [] then []
    else
      let file_candidates := collect_candidates st env query_tokens
      let results := file_candidates.map (fun c =>
        (c.1, c.2.1.node_address,
         compute_relevance_score query_tokens c.2.1.all_tokens))
      pySortDesc results

/-! ## Ideal ring successor (chord_utils.ChordRing.get_successor,
lines 199-214): global view over a node list. -/

def insertByIdAsc (x : Node) : List Node → List Node
  | [] => [x]
  | y :: ys => if x.node_id < y.node_id then x :: y :: ys else y :: insertByIdAsc x ys

/-- Python `sorted(nodes, key=lambda n: n.id)` (stable ascending). -/
def sortById (l : List Node) : List Node :=
  l.foldl (fun acc x => insertByIdAsc x acc) []

namespace ChordUtils

def get_successor (nodes : List Node) (key : Nat) : Option Node :=
  if nodes = [] then none
  else
    let sorted_nodes := sortById nodes
    match sorted_nodes.find? (fun n => decide (n.node_id ≥ key)) with
    | some n => some n
    | none => sorted_nodes.head?

end ChordUtils

/-! ## Request dispatcher (ChordNode._process_request, lines 1085-1281)

A request is the parsed JSON object; absent fields are `none` (Python
`request.get(...)`). Response payloads other than the `success` flag
and the `error` string are not consumed by any claim and are elided.
Branches in which Python raises (subscripting a `None` field,
comparing `None` against an int inside `in_range`) return
`Except.error`; `_handle_client` (lines 1060-1083) catches the
exception and answers `success: False` without touching state, which
`handleRequest` reproduces. -/

structure Response where
  success : Bool
  error : Option String := none
deriving DecidableEq

structure Request where
  type : Option String := none
  key_id : Option Nat := none
  node : Option Node := none
  filename : Option String := none
  content : Option String := none
  file_hash : Option Nat := none
  from_node : Option Nat := none
  query : Option String := none
  token : Option String := none
  token_hash : Option Nat := none
  file_metadata : Option FileMetadata := none
  new_successor : Option Node := none
  new_predecessor : Option Node := none

/-- The opcodes the dispatcher's elif chain recognizes. -/
def knownTypes : List String :=
  ["ping", "find_successor", "get_predecessor", "get_successor", "notify",
   "store_file", "search_files", "get_file", "get_status", "transfer_file",
   "update_successor", "update_predecessor", "store_token", "lookup_token"]

/-- Python truthiness of the `token` field: `None` and `""` are falsy. -/
def tokenTruthy : Option String → Bool
  | none => false
  | some s => s != ""

def optTypeStr : Option String → String
  | some s => s
  | none => "None"

def processRequest (st : NodeState) (remote : Node → Nat → Option Node)
    (req : Request) : Except String (NodeState × Response) :=
  if req.type = some "ping" then .ok (st, ⟨true, none⟩)
  else if req.type = some "find_successor" then
    -- ring.find_successor(key_id): a None key_id raises TypeError inside
    -- in_range unless the singleton branch returns first
    if st.ring.successor.node_id == st.ring.local_node.node_id then
      .ok (st, ⟨true, none⟩)
    else match req.key_id with
      | none => .error "TypeError: key_id is None"
      | some k =>
        match find_successor st.ring remote k with
        | some _ => .ok (st, ⟨true, none⟩)
        | none => .ok (st, ⟨false, some "No successor found"⟩)
  else if req.type = some "get_predecessor" then .ok (st, ⟨true, none⟩)
  else if req.type = some "get_successor" then .ok (st, ⟨true, none⟩)
  else if req.type = some "notify" then
    match req.node with
    | none => .error "TypeError: node is None"
    | some n => .ok ({ st with ring := ring_notify st.ring n }, ⟨true, none⟩)
  else if req.type = some "store_file" then
    let file_record : FileRecord :=
      ⟨req.filename, req.content.getD "", req.file_hash, []⟩
    .ok ({ st with files := assocUpsert st.files req.filename file_record },
         ⟨true, none⟩)
  else if req.type = some "search_files" then .ok (st, ⟨true, none⟩)
  else if req.type = some "get_file" then
    match assocFind st.files req.filename with
    | some _ => .ok (st, ⟨true, none⟩)
    | none => .ok (st, ⟨false, some "File not found"⟩)
  else if req.type = some "get_status" then .ok (st, ⟨true, none⟩)
  else if req.type = some "transfer_file" then
    let file_record : FileRecord :=
      ⟨req.filename, req.content.getD "", req.file_hash, []⟩
    .ok ({ st with files := assocUpsert st.files req.filename file_record },
         ⟨true, none⟩)
  else if req.type = some "update_successor" then
    match req.new_successor with
    | some n =>
      .ok ({ st with ring := { st.ring with successor := n } }, ⟨true, none⟩)
    | none => .ok (st, ⟨true, none⟩)
  else if req.type = some "update_predecessor" then
    match req.new_predecessor with
    | some n =>
      .ok ({ st with ring := { st.ring with predecessor := some n } },
           ⟨true, none⟩)
    | none =>
      .ok ({ st with ring := { st.ring with predecessor := none } },
           ⟨true, none⟩)
  else if req.type = some "store_token" then
    match req.token, req.file_metadata with
    | some token, some md =>
      if token != "" then
        let tr := match assocFind st.token_index token with
          | some tr => tr
          | none => (⟨token, req.token_hash, []⟩ : TokenRecord)
        let tr2 := { tr with files := assocUpsert tr.files md.filename md }
        .ok ({ st with token_index := assocUpsert st.token_index token tr2 },
             ⟨true, none⟩)
      else .ok (st, ⟨false, some "Invalid token data"⟩)
    | _, _ => .ok (st, ⟨false, some "Invalid token data"⟩)
  else if req.type = some "lookup_token" then
    match req.token with
    | some token =>
      if token != "" then .ok (st, ⟨true, none⟩)
      else .ok (st, ⟨false, some "Token not provided"⟩)
    | none => .ok (st, ⟨false, some "Token not provided"⟩)
  else
    .ok (st, ⟨false, some ("Unknown request type: " ++ optTypeStr req.type)⟩)

/-- `_handle_client`: the exception path answers success = False and
leaves state untouched. -/
def handleRequest (st : NodeState) (remote : Node → Nat → Option Node)
    (req : Request) : NodeState × Response :=
  match processRequest st remote req with
  | .ok r => r
  | .error e => (st, ⟨false, some e⟩)

/-! ## Concrete states and environments used in closed theorems -/

def nodeL : Node := ⟨5, "h", 1⟩

def ringL : RingState := ⟨nodeL, nodeL, none, [], 0⟩

def envNull : Env :=
  ⟨fun _ _ => none, fun _ _ _ _ => false, fun _ _ => [], fun _ _ => [],
   fun _ => none, fun _ => 0⟩

def recA : FileRecord := ⟨some "a.txt", "AAA", some 0, []⟩

/-- Singleton node holding one local file. -/
def stOneFile : NodeState := ⟨ringL, [(some "a.txt", recA)], []⟩

def mdZ : FileMetadata := ⟨"zz.txt", 0, 5, "h:1", ["data", "dat"], 3⟩

def mdA : FileMetadata := ⟨"aa.txt", 0, 5, "h:1", ["data", "dat"], 3⟩

/-- Singleton node whose local postings for token "data" list two files
in non-lexicographic insertion order. -/
def stTie : NodeState :=
  ⟨ringL, [], [("data", ⟨"data", some 0, [("zz.txt", mdZ), ("aa.txt", mdA)]⟩)]⟩

def nodeA : Node := ⟨10, "a", 1⟩

def nodeB : Node := ⟨20, "b", 2⟩

/-- Two-node view: local node 10, successor 20, one finger. -/
def ringAB : RingState := ⟨nodeA, nodeB, none, [some nodeB], 0⟩

def stAB : NodeState := ⟨ringAB, [], []⟩

/-- Environment in which every remote file store fails and the routing
oracle resolves key 21 to node 10. -/
def envAB : Env :=
  { remote := fun _ k => if k == 21 then some nodeA else none
    remoteStore := fun _ _ _ _ => false
    remoteLookup := fun _ _ => []
    remoteSearch := fun _ _ => []
    getSucc := fun _ => none
    hash := fun s => if s == "f.txt" then 15 else 0 }

def ringNodes3 : List Node := [⟨10, "a", 1⟩, ⟨100, "b", 2⟩, ⟨200, "c", 3⟩]

def emptyState : NodeState := ⟨ringL, [], []⟩

def reqUnknown : Request := { type := some "bogus" }

def reqNoToken : Request := { type := some "store_token" }

def reqStoreMissing : Request := { type := some "store_file", filename := some "x" }

/-! # Theorems -/

/-- C1 counterexample: at `x = 0`, `a = b = 1` (both in `[0, 2^8)`),
the open predicate `chord_utils.in_range` returns `true` where the
claim demands `false`, and the right-closed predicate
`chord_node_v2.in_range` returns `true` where the claim demands
`(x == a) = false`: the claimed equal-endpoint semantics fails on both
predicates. -/
theorem C1_counterexample :
    ChordUtils.in_range 0 1 1 = true ∧ in_range 0 1 1 = true := by
  decide

/-- C1 (amended): when the two endpoints coincide, the source's open
predicates (`chord_utils.in_range` and `ChordRing._is_between`) denote
the full ring minus the endpoint, `in_open(x, a, a) = (x ≠ a)`, and the
right-closed predicate `chord_node_v2.in_range` denotes the full ring,
`in_right_closed(x, a, a) = true` for every `x` — not the empty set and
the singleton `{a}` that the claim states. -/
theorem C1_equal_endpoints (x a : Nat) :
    ChordUtils.in_range x a a = decide (x ≠ a) ∧
    is_between x a a = decide (x ≠ a) ∧
    in_range x a a = true := by
  refine ⟨?_, ?_, ?_⟩
  · simp only [ChordUtils.in_range, beq_self_eq_true, if_true]
    by_cases h : x = a <;> simp [h, bne]
  · simp only [is_between, beq_self_eq_true, if_true]
    by_cases h : x = a <;> simp [h, bne]
  · simp only [in_range, lt_irrefl, if_false]
    simp only [Bool.or_eq_true, decide_eq_true_eq]
    omega

/-- C2: `ChordRing.find_successor` resolves locally in the two claimed
cases: a node that is its own successor (node equality is by id)
returns itself for every key, and otherwise a key inside the
right-closed interval `(self.id, successor.id]` returns the stored
successor — in both cases for every behaviour of the forwarding oracle,
i.e. without forwarding. -/
theorem C2_find_successor_local_cases (st : RingState)
    (remote : Node → Nat → Option Node) (k : Nat) :
    (st.successor.node_id = st.local_node.node_id →
      find_successor st remote k = some st.local_node) ∧
    (st.successor.node_id ≠ st.local_node.node_id →
      in_range k st.local_node.node_id st.successor.node_id = true →
      find_successor st remote k = some st.successor) := by
  constructor
  · intro h
    simp [find_successor, h]
  · intro h hin
    simp [find_successor, h, hin]

/-- C2 witness: the singleton ring `ringL` answers itself on key 7, and
the two-node ring `ringAB` (self 10, successor 20) answers its stored
successor on key 15 ∈ (10, 20]. -/
theorem C2_witness :
    (ringL.successor.node_id = ringL.local_node.node_id ∧
     find_successor ringL envNull.remote 7 = some ringL.local_node) ∧
    (ringAB.successor.node_id ≠ ringAB.local_node.node_id ∧
     in_range 15 ringAB.local_node.node_id ringAB.successor.node_id = true ∧
     find_successor ringAB envNull.remote 15 = some ringAB.successor) :=
  ⟨⟨by decide, (C2_find_successor_local_cases ringL envNull.remote 7).1 (by decide)⟩,
   ⟨by decide, by decide,
    (C2_find_successor_local_cases ringAB envNull.remote 15).2 (by decide) (by decide)⟩⟩

/-- C3 counterexample: the empty query tokenizes to the empty set, yet
on a singleton node holding one file the ranked distributed search
falls back to the traditional substring search (lines 900-903), in
which the empty string is a substring of every filename: the result is
the full local file list with score 1.0, not the empty list. -/
theorem C3_counterexample :
    tokenize_filename "" = [] ∧
    search_files_distributed stOneFile envNull "" = [("a.txt", "h:1", 1)] := by
  exact ⟨by decide, by decide⟩

/-- C3 (amended): only queries that are not pure whitespace and whose
token set is empty (e.g. single-character queries) yield the empty
ranked result; empty or all-whitespace queries instead take the
substring-search fallback, where the empty query matches every file on
the visited nodes with score 1.0. -/
theorem C3_nonwhitespace_empty_tokens (st : NodeState) (env : Env)
    (query : String) (hq : pyStrip query ≠ "")
    (ht : tokenize_filename query = []) :
    search_files_distributed st env query = [] := by
  unfold search_files_distributed
  rw [if_neg hq]
  simp [ht]

/-- C3 witness: the query "a" is non-whitespace, tokenizes to the
empty set, and returns the empty ranked list. -/
theorem C3_witness :
    pyStrip "a" ≠ "" ∧ tokenize_filename "a" = [] ∧
    search_files_distributed stOneFile envNull "a" = [] :=
  ⟨by decide, by decide,
   C3_nonwhitespace_empty_tokens stOneFile envNull "a" (by decide) (by decide)⟩

/-- C5 counterexample: on the singleton `stTie`, the query "data"
yields two results with equal score 1.0 in the inverted-index
insertion order "zz.txt", "aa.txt" — not in ascending lexicographic
filename order, although "aa.txt" < "zz.txt": the claimed
deterministic filename tie-break does not exist (line 928 sorts by
score only). -/
theorem C5_counterexample :
    search_files_distributed stTie envNull "data" =
      [("zz.txt", "h:1", 1), ("aa.txt", "h:1", 1)] ∧
    ("aa.txt" : String) < "zz.txt" := by
  constructor
  · with_unfolding_all exact of_decide_eq_true rfl
  · with_unfolding_all exact of_decide_eq_true rfl

/-- Every element of `insertDesc x l` is `x` or from `l`. -/
theorem mem_insertDesc {x z : String × String × Rat}
    {l : List (String × String × Rat)} (h : z ∈ insertDesc x l) :
    z = x ∨ z ∈ l := by
  induction l with
  | nil => simpa [insertDesc] using h
  | cons y ys ih =>
    rw [insertDesc] at h
    by_cases hc : x.2.2 > y.2.2
    · rw [if_pos hc] at h
      rcases List.mem_cons.mp h with h | h
      · exact Or.inl h
      · exact Or.inr h
    · rw [if_neg hc] at h
      rcases List.mem_cons.mp h with h | h
      · exact Or.inr (List.mem_cons.mpr (Or.inl h))
      · rcases ih h with h | h
        · exact Or.inl h
        · exact Or.inr (List.mem_cons.mpr (Or.inr h))

/-- `insertDesc` preserves the weakly-descending-score invariant. -/
theorem insertDesc_sorted (x : String × String × Rat)
    (l : List (String × String × Rat))
    (h : l.Pairwise (fun a b => b.2.2 ≤ a.2.2)) :
    (insertDesc x l).Pairwise (fun a b => b.2.2 ≤ a.2.2) := by
  induction l with
  | nil => simp [insertDesc]
  | cons y ys ih =>
    rcases List.pairwise_cons.mp h with ⟨hy, hys⟩
    rw [insertDesc]
    by_cases hc : x.2.2 > y.2.2
    · rw [if_pos hc]
      refine List.pairwise_cons.mpr ⟨?_, h⟩
      intro z hz
      rcases List.mem_cons.mp hz with rfl | hz
      · exact le_of_lt hc
      · exact le_trans (hy z hz) (le_of_lt hc)
    · rw [if_neg hc]
      refine List.pairwise_cons.mpr ⟨?_, ih hys⟩
      intro z hz
      rcases mem_insertDesc hz with rfl | hz
      · exact le_of_not_lt hc
      · exact hy z hz

theorem foldl_insertDesc_sorted (l acc : List (String × String × Rat))
    (h : acc.Pairwise (fun a b => b.2.2 ≤ a.2.2)) :
    (l.foldl (fun acc x => insertDesc x acc) acc).Pairwise
      (fun a b => b.2.2 ≤ a.2.2) := by
  induction l generalizing acc with
  | nil => simpa using h
  | cons x xs ih => exact ih _ (insertDesc_sorted x acc h)

theorem pairwiseOfForall {α : Type} {R : α → α → Prop}
    (hr : ∀ a b, R a b) (l : List α) : l.Pairwise R := by
  induction l with
  | nil => exact List.Pairwise.nil
  | cons x xs ih => exact List.pairwise_cons.mpr ⟨fun b _ => hr x b, ih⟩

/-- C5 (amended): the ranked distributed search returns a list that is
weakly sorted by relevance score in descending order, for every state,
environment and query; equal-score results keep the candidate
insertion order (Python's sort is stable and uses the score as its
only key), with no lexicographic filename tie-break. -/
theorem C5_sorted_by_score_desc (st : NodeState) (env : Env) (query : String) :
    (search_files_distributed st env query).Pairwise
      (fun a b => b.2.2 ≤ a.2.2) := by
  simp only [search_files_distributed]
  split
  · exact List.pairwise_map.mpr (pairwiseOfForall (fun a b => le_refl _) _)
  · split
    · exact List.Pairwise.nil
    · unfold pySortDesc
      exact foldl_insertDesc_sorted _ _ List.Pairwise.nil

/-- C4 counterexample: with query tokens {"abc"} and file tokens
{"abcd"} the exact intersection is empty, so the claimed score
|Q ∩ F| / |Q| is 0 — but `chord_utils.compute_relevance_score` adds a
substring partial-match contribution weighted by 0.5 and returns 1/2. -/
theorem C4_counterexample :
    ChordUtils.compute_relevance_score ["abc"] ["abcd"] = 1 / 2 ∧
    relevanceSpec ["abc"] ["abcd"] = 0 := by
  constructor
  · with_unfolding_all exact of_decide_eq_true rfl
  · with_unfolding_all exact of_decide_eq_true rfl

/-- C4 (amended): the scorer actually used by the ranked search path,
`chord_node_v2.compute_relevance_score`, does equal |Q ∩ F| / |Q| (set
cardinalities) for duplicate-free query token lists — which is what
`tokenize_filename` produces — and 0 when either list is empty; the
legacy `chord_utils.compute_relevance_score` additionally awards
0.5-weighted substring partial matches when the exact intersection is
empty. -/
theorem C4_v2_score_eq_spec (Q F : List String) (hQ : Q.Nodup) :
    compute_relevance_score Q F = relevanceSpec Q F := by
  unfold compute_relevance_score relevanceSpec
  by_cases h : Q = [] ∨ F = []
  · rw [if_pos h, if_pos h]
  · rw [if_neg h, if_neg h]
    have h1 : (Q.filter (fun t => F.contains t)).toFinset =
        Q.toFinset ∩ F.toFinset := by
      ext a
      simp [List.mem_filter]
    have h2 : (Q.filter (fun t => F.contains t)).toFinset.card =
        (Q.filter (fun t => F.contains t)).length :=
      List.toFinset_card_of_nodup (hQ.filter _)
    have h3 : Q.toFinset.card = Q.length :=
      List.toFinset_card_of_nodup hQ
    rw [← h1, h2, h3]

/-- C4 witness: duplicate-free query ["ml"] against file tokens
["ml"]. -/
theorem C4_witness :
    (["ml"] : List String).Nodup ∧
    compute_relevance_score ["ml"] ["ml"] = relevanceSpec ["ml"] ["ml"] :=
  ⟨by decide, C4_v2_score_eq_spec ["ml"] ["ml"] (by decide)⟩

/-- Membership in Python `range(a, b)`. -/
theorem mem_pyRange (a b i : Nat) : i ∈ pyRange a b ↔ a ≤ i ∧ i < b := by
  unfold pyRange
  simp only [List.mem_map, List.mem_range]
  constructor
  · rintro ⟨j, hj, rfl⟩
    omega
  · rintro ⟨h1, h2⟩
    exact ⟨i - a, by omega, by omega⟩

/-- Membership in the generated proper-prefix list of a token. -/
theorem mem_pfxs (u x : String) :
    x ∈ pfxs u ↔
      ∃ i, 3 ≤ i ∧ i < u.length ∧ x = (u.toList.take i).asString := by
  unfold pfxs
  by_cases h : u.length > 3
  · rw [if_pos h]
    simp only [List.mem_map]
    constructor
    · rintro ⟨i, hi, rfl⟩
      rcases (mem_pyRange 3 u.length i).mp hi with ⟨h1, h2⟩
      exact ⟨i, h1, h2, rfl⟩
    · rintro ⟨i, h1, h2, rfl⟩
      exact ⟨i, (mem_pyRange 3 u.length i).mpr ⟨h1, h2⟩, rfl⟩
  · rw [if_neg h]
    simp only [List.not_mem_nil, false_iff]
    rintro ⟨i, h1, h2, _⟩
    omega

/-- C6 (amended): `chord_node_v2.tokenize_filename` contains exactly
the claimed set — the kept tokens of the split-lowercase-filter front
end together with their prefixes of length 3 up to len-1, and nothing
else (in particular not the whole un-split name when it splits). The
claim fails only for the legacy `chord_utils.tokenize_filename`, which
adds the whole un-split name and no prefixes. -/
theorem C6_tokenize_membership (f x : String) :
    x ∈ tokenize_filename f ↔
      (x ∈ keptTokens f ∨
       ∃ u ∈ keptTokens f, ∃ i, 3 ≤ i ∧ i < u.length ∧
         x = (u.toList.take i).asString) := by
  unfold tokenize_filename
  simp only [List.mem_dedup, List.mem_append, List.mem_flatMap, mem_pfxs]

/-- C6 counterexample: on "machine_learning.txt" the claimed token set
contains the prefix "mach" (of kept token "machine") and not the
un-split name "machine_learning" — `chord_node_v2.tokenize_filename`
agrees, but `chord_utils.tokenize_filename` (also cited by the claim)
contains the un-split name and misses every prefix. -/
theorem C6_counterexample :
    "machine_learning" ∈ ChordUtils.tokenize_filename "machine_learning.txt" ∧
    "mach" ∉ ChordUtils.tokenize_filename "machine_learning.txt" ∧
    "mach" ∈ tokenize_filename "machine_learning.txt" ∧
    "machine_learning" ∉ tokenize_filename "machine_learning.txt" := by
  refine ⟨by decide, by decide, by decide, by decide⟩

/-- The replica loop only appends to its accumulator, and the appended
suffix is a successor chain starting at the current key. -/
theorem replicaLoop_chain (fs : Nat → Option Node) :
    ∀ (fuel cur : Nat) (acc : List Node),
      ∃ suffix, replicaLoop fs fuel cur acc = acc ++ suffix ∧
        chainFrom fs cur suffix := by
  intro fuel
  induction fuel with
  | zero =>
    intro cur acc
    exact ⟨[], by simp [replicaLoop], trivial⟩
  | succ n ih =>
    intro cur acc
    cases hfs : fs cur with
    | none => exact ⟨[], by simp [replicaLoop, hfs], trivial⟩
    | some node =>
      by_cases hmem : acc.any (fun m => m.node_id == node.node_id)
      · exact ⟨[], by simp [replicaLoop, hfs, hmem], trivial⟩
      · obtain ⟨s, hs, hchain⟩ := ih ((node.node_id + 1) % RING_SIZE) (acc ++ [node])
        refine ⟨node :: s, ?_, hfs, hchain⟩
        simp only [replicaLoop, hfs, hmem, Bool.false_eq_true, if_false]
        rw [hs]
        simp

/-- The replica loop adds at most `fuel` nodes. -/
theorem replicaLoop_length (fs : Nat → Option Node) :
    ∀ (fuel cur : Nat) (acc : List Node),
      (replicaLoop fs fuel cur acc).length ≤ acc.length + fuel := by
  intro fuel
  induction fuel with
  | zero =>
    intro cur acc
    simp [replicaLoop]
  | succ n ih =>
    intro cur acc
    cases hfs : fs cur with
    | none => simp [replicaLoop, hfs]
    | some node =>
      by_cases hmem : acc.any (fun m => m.node_id == node.node_id)
      · simp [replicaLoop, hfs, hmem]
      · simp only [replicaLoop, hfs, hmem, Bool.false_eq_true, if_false]
        calc (replicaLoop fs n ((node.node_id + 1) % RING_SIZE) (acc ++ [node])).length
            ≤ (acc ++ [node]).length + n := ih _ _
          _ = acc.length + (n + 1) := by simp; omega

/-- The replica loop never appends a node id already present. -/
theorem replicaLoop_nodup (fs : Nat → Option Node) :
    ∀ (fuel cur : Nat) (acc : List Node),
      (acc.map Node.node_id).Nodup →
      ((replicaLoop fs fuel cur acc).map Node.node_id).Nodup := by
  intro fuel
  induction fuel with
  | zero =>
    intro cur acc h
    simpa [replicaLoop] using h
  | succ n ih =>
    intro cur acc h
    cases hfs : fs cur with
    | none => simpa [replicaLoop, hfs] using h
    | some node =>
      by_cases hmem : acc.any (fun m => m.node_id == node.node_id)
      · simpa [replicaLoop, hfs, hmem] using h
      · simp only [replicaLoop, hfs, hmem, Bool.false_eq_true, if_false]
        refine ih _ _ ?_
        simp only [List.any_eq_true, beq_iff_eq, not_exists, not_and] at hmem
        simp only [List.map_append, List.map_cons, List.map_nil]
        rw [List.nodup_append]
        refine ⟨h, List.nodup_singleton _, ?_⟩
        intro a ha hb
        simp only [List.mem_singleton] at hb
        rcases List.mem_map.mp ha with ⟨m, hm, rfl⟩
        exact hmem m hm (by rw [hb])

/-- When the oracle for remote lookups never fails, the local
`find_successor` always resolves. -/
theorem find_successor_isSome (st : RingState)
    (remote : Node → Nat → Option Node) (k : Nat)
    (h : ∀ n k2, remote n k2 ≠ none) :
    find_successor st remote k ≠ none := by
  unfold find_successor
  split
  · simp
  · split
    · simp
    · dsimp only
      split
      · simp
      · exact h _ _

/-- Storing a posting never changes the ring triple. -/
theorem store_token_record_ring (st : NodeState) (node : Node)
    (token : String) (th : Nat) (md : FileMetadata) :
    (store_token_record st node token th md).ring = st.ring := by
  unfold store_token_record
  split <;> rfl

/-- The posting loop sends each token to exactly the resolved
successor of its hash, one posting per token, and never touches the
ring. -/
theorem indexFold_trace (env : Env) (md : FileMetadata) :
    ∀ (tokens : List String) (s : NodeState) (tr : List (String × Node)),
      (tokens.foldl (indexFoldStep env md) (s, tr)).2 =
        tr ++ tokens.filterMap (fun t =>
          (find_successor s.ring env.remote (env.hash t)).map (fun n => (t, n))) ∧
      (tokens.foldl (indexFoldStep env md) (s, tr)).1.ring = s.ring := by
  intro tokens
  induction tokens with
  | nil =>
    intro s tr
    exact ⟨by simp, rfl⟩
  | cons t ts ih =>
    intro s tr
    simp only [List.foldl_cons, List.filterMap_cons]
    cases hfs : find_successor s.ring env.remote (env.hash t) with
    | none =>
      simp only [indexFoldStep, hfs]
      exact ih s tr
    | some node =>
      simp only [indexFoldStep, hfs, Option.map_some]
      obtain ⟨h1, h2⟩ :=
        ih (store_token_record s node t (env.hash t) md) (tr ++ [(t, node)])
      constructor
      · rw [h1]
        simp only [store_token_record_ring]
        simp
      · rw [h2, store_token_record_ring]

/-- A replica enumeration whose first lookup resolves is nonempty. -/
theorem replicaLoop_ne_nil (fs : Nat → Option Node) (fuel cur : Nat)
    (n : Node) (h : fs cur = some n) :
    replicaLoop fs (fuel + 1) cur [] ≠ [] := by
  obtain ⟨s, hs, _⟩ := replicaLoop_chain fs fuel ((n.node_id + 1) % RING_SIZE) [n]
  simp [replicaLoop, h, hs]

/-- C7 counterexample: with the live ring {10, 100, 200} and key 5,
the file replica list has three members — `REPLICATION_FACTOR` is 3,
one primary plus two copies, not the claimed r = 2 (one primary plus
one copy). -/
theorem C7_counterexample :
    REPLICATION_FACTOR = 3 ∧
    (get_replica_nodes (ChordUtils.get_successor ringNodes3) 5).map Node.node_id
      = [10, 100, 200] :=
  ⟨rfl, by decide⟩

/-- C7 (amended): the replica list is the chain of successive
successors — the head resolves the key, every later entry resolves the
previous entry's id + 1 (mod ring size) — with replication factor
`REPLICATION_FACTOR = 3` for files (one primary plus two copies), and
the inverted-index build places each token on exactly one node, the
resolved successor of its hash (r = 1, no replication for postings). -/
theorem C7_replicas_and_postings (fs : Nat → Option Node) (k : Nat)
    (st : NodeState) (env : Env) (filename : String) (primary : Node)
    (content : String) :
    chainFrom fs k (get_replica_nodes fs k) ∧
    (get_replica_nodes fs k).length ≤ REPLICATION_FACTOR ∧
    REPLICATION_FACTOR = 3 ∧
    (build_inverted_index st env filename primary content).2 =
      (tokenize_filename filename).filterMap (fun t =>
        (find_successor st.ring env.remote (env.hash t)).map (fun n => (t, n))) := by
  refine ⟨?_, ?_, rfl, ?_⟩
  · obtain ⟨s, hs, hchain⟩ := replicaLoop_chain fs REPLICATION_FACTOR k []
    unfold get_replica_nodes
    rw [hs]
    simpa using hchain
  · have h := replicaLoop_length fs REPLICATION_FACTOR k []
    unfold get_replica_nodes
    simpa using h
  · have h := (indexFold_trace env
      ⟨filename, env.hash filename, primary.node_id, primary.addr_str,
       tokenize_filename filename, content.length⟩
      (tokenize_filename filename) st []).1
    unfold build_inverted_index
    simpa using h

/-- C10: for every ring state and key, when remote lookups resolve
(the oracle never fails), the replica enumeration built on the local
`find_successor` contains no duplicate node ids and has between 1 and
`REPLICATION_FACTOR` entries; the iteration stops as soon as the
successor chain would repeat a node. -/
theorem C10_replica_nodes_shape (st : RingState)
    (remote : Node → Nat → Option Node) (k : Nat)
    (hremote : ∀ n k2, remote n k2 ≠ none) :
    ((get_replica_nodes (find_successor st remote) k).map Node.node_id).Nodup ∧
    1 ≤ (get_replica_nodes (find_successor st remote) k).length ∧
    (get_replica_nodes (find_successor st remote) k).length ≤
      REPLICATION_FACTOR := by
  refine ⟨?_, ?_, ?_⟩
  · exact replicaLoop_nodup _ _ _ _ (by simp)
  · have hne : find_successor st remote k ≠ none :=
      find_successor_isSome st remote k hremote
    obtain ⟨n, hn⟩ := Option.ne_none_iff_exists'.mp hne
    have h3 : get_replica_nodes (find_successor st remote) k ≠ [] :=
      replicaLoop_ne_nil (find_successor st remote) 2 k n hn
    have := List.length_pos.mpr h3
    omega
  · have h := replicaLoop_length (find_successor st remote) REPLICATION_FACTOR k []
    unfold get_replica_nodes
    simpa using h

/-- C10 witness: the singleton ring with a total remote oracle yields
the one-element replica list. -/
theorem C10_witness :
    (∀ (n : Node) (k2 : Nat),
        (fun (_ : Node) (_ : Nat) => some nodeL) n k2 ≠ none) ∧
    (((get_replica_nodes (find_successor ringL
        (fun _ _ => some nodeL)) 0).map Node.node_id).Nodup ∧
     1 ≤ (get_replica_nodes (find_successor ringL
        (fun _ _ => some nodeL)) 0).length ∧
     (get_replica_nodes (find_successor ringL
        (fun _ _ => some nodeL)) 0).length ≤ REPLICATION_FACTOR) :=
  ⟨fun n k2 => by simp,
   C10_replica_nodes_shape ringL (fun _ _ => some nodeL) 0
     (fun n k2 => by simp)⟩

/-- C8 (amended): `store_file` reports success iff the routing step
resolved an owner and at least one node of the replica list accepted
the record — the local node (whose store always succeeds) or a remote
node whose store call returned success. Success of the primary (the
first replica node) is not required. -/
theorem C8_store_success_iff (st : NodeState) (env : Env)
    (filename content : String) :
    (store_file st env filename content).1 = true ↔
      (find_successor st.ring env.remote (env.hash filename) ≠ none ∧
       ∃ node ∈ get_replica_nodes (find_successor st.ring env.remote)
           (env.hash filename),
         node.node_id = st.ring.local_node.node_id ∨
         env.remoteStore node filename content (env.hash filename) = true) := by
  unfold store_file
  cases hfs : find_successor st.ring env.remote (env.hash filename) with
  | none => simp [hfs]
  | some r =>
    simp only [hfs]
    split
    · rename_i hpos
      simp only [ne_eq, reduceCtorEq, not_false_eq_true, true_and]
      constructor
      · intro _
        obtain ⟨a, ha⟩ := List.exists_mem_of_length_pos hpos
        rcases List.mem_filter.mp ha with ⟨hmem, hp⟩
        refine ⟨a, hmem, ?_⟩
        simpa [Bool.or_eq_true, beq_iff_eq] using hp
      · intro _
        trivial
    · rename_i hneg
      simp only [ne_eq, reduceCtorEq, not_false_eq_true, true_and]
      constructor
      · intro h
        simp at h
      · rintro ⟨a, hmem, hp⟩
        exfalso
        apply hneg
        have ha : a ∈ (get_replica_nodes (find_successor st.ring env.remote)
            (env.hash filename)).filter (fun node =>
              node.node_id == st.ring.local_node.node_id ||
              env.remoteStore node filename content (env.hash filename)) :=
          List.mem_filter.mpr ⟨hmem, by simpa [Bool.or_eq_true, beq_iff_eq] using hp⟩
        exact List.length_pos.mpr (List.ne_nil_of_mem ha)

/-- C8 counterexample: on the two-node view `stAB` (local node 10,
successor 20) with hash("f.txt") = 15, the replica list is
[node 20, node 10]; every remote store fails (so the primary, node 20,
does not receive the record), yet `store_file` returns success because
the second replica — the local node — stored it. -/
theorem C8_counterexample :
    (store_file stAB envAB "f.txt" "data").1 = true ∧
    (get_replica_nodes (find_successor stAB.ring envAB.remote)
        (envAB.hash "f.txt")).map Node.node_id = [20, 10] ∧
    stAB.ring.local_node.node_id = 10 ∧
    (∀ (n : Node) (fn ct : String) (h : Nat),
        envAB.remoteStore n fn ct h = false) := by
  refine ⟨by decide, by decide, rfl, fun n fn ct h => rfl⟩

/-- C9 (amended): a request whose type matches no known opcode is
answered success = False naming the unknown type, and a `store_token`
without a usable token (or metadata), or a `lookup_token` without a
usable token, is answered success = False — in all three cases with
the entire node state (ring triple, files map, token index) unchanged.
The dispatcher does NOT validate the fields of `store_file` /
`transfer_file`: those mutate the files map and report success even
with fields missing (see the counterexample). -/
theorem C9_reject_without_mutation (st : NodeState)
    (remote : Node → Nat → Option Node) (req : Request) :
    ((∀ t, req.type = some t → t ∉ knownTypes) →
      handleRequest st remote req =
        (st, ⟨false, some ("Unknown request type: " ++ optTypeStr req.type)⟩)) ∧
    (req.type = some "store_token" →
      (req.token = none ∨ req.token = some "" ∨ req.file_metadata = none) →
      handleRequest st remote req = (st, ⟨false, some "Invalid token data"⟩)) ∧
    (req.type = some "lookup_token" →
      (req.token = none ∨ req.token = some "") →
      handleRequest st remote req = (st, ⟨false, some "Token not provided"⟩)) := by
  refine ⟨?_, ?_, ?_⟩
  · intro hunk
    cases hty : req.type with
    | none => simp [handleRequest, processRequest, hty, optTypeStr]
    | some t =>
      have ht := hunk t hty
      simp only [knownTypes, List.mem_cons, List.mem_singleton, not_or] at ht
      obtain ⟨h1, h2, h3, h4, h5, h6, h7, h8, h9, h10, h11, h12, h13, h14⟩ := ht
      simp [handleRequest, processRequest, hty, optTypeStr,
        h1, h2, h3, h4, h5, h6, h7, h8, h9, h10, h11, h12, h13, h14]
  · intro hty hbad
    rcases hbad with hb | hb | hb
    · simp [handleRequest, processRequest, hty, hb]
    · cases hmd : req.file_metadata with
      | none => simp [handleRequest, processRequest, hty, hb, hmd]
      | some md => simp [handleRequest, processRequest, hty, hb, hmd]
    · cases htok : req.token with
      | none => simp [handleRequest, processRequest, hty, htok, hb]
      | some tok =>
        by_cases he : tok = ""
        · simp [handleRequest, processRequest, hty, htok, hb, he]
        · simp [handleRequest, processRequest, hty, htok, hb, he]
  · intro hty hbad
    rcases hbad with hb | hb
    · simp [handleRequest, processRequest, hty, hb]
    · simp [handleRequest, processRequest, hty, hb]

/-- C9 counterexample: the request `{'type': 'store_file',
'filename': 'x'}` — its required `content` and `file_hash` fields
missing — is not rejected: on the empty-state node the handler inserts
a file record (with content "" and a null hash) into the files map and
answers success = True, mutating state where the claim requires
success = False and no mutation. -/
theorem C9_counterexample :
    (handleRequest emptyState envNull.remote reqStoreMissing).2 =
      ⟨true, none⟩ ∧
    (handleRequest emptyState envNull.remote reqStoreMissing).1.files =
      [(some "x", ⟨some "x", "", none, []⟩)] ∧
    emptyState.files = [] := by
  refine ⟨by decide, by decide, rfl⟩

/-- C9 witness: an unknown opcode "bogus" and a `store_token` without
a token are both rejected with the state unchanged. -/
theorem C9_witness :
    handleRequest emptyState envNull.remote reqUnknown =
      (emptyState, ⟨false, some "Unknown request type: bogus"⟩) ∧
    handleRequest emptyState envNull.remote reqNoToken =
      (emptyState, ⟨false, some "Invalid token data"⟩) :=
  ⟨(C9_reject_without_mutation emptyState envNull.remote reqUnknown).1
     (fun t ht => by
       rw [show t = "bogus" from (Option.some.inj ht).symm]
       decide),
   (C9_reject_without_mutation emptyState envNull.remote reqNoToken).2.1
     rfl (Or.inl rfl)⟩
